/-
Verification of the smart_split kitten's layout logic.

This file gives a shallow embedding of the pane-layout code of the
`smart_split` kitten (files `smart_split_state.py`, `smart_split_layout.py`,
`smart_split_hyprland.py`, `main.py`) and proves the documented properties of
the order tracker, the shape classifier, the layout normalizer, the command
dispatcher's guards, and the repaint workaround's error handling.

Modelling conventions:
* Python ints are `Int`; window ids and group ids are `Int`.
* The serialized splits tree (nested dicts with keys "horizontal", "one",
  "two", where a child is either a nested dict, a leaf group id, or absent)
  is the inductive `SNode`; `SNode.nil` stands for Python `None` / a missing
  key / an unavailable tree.
* Host-side reads (current layout kind, per-window group ids, window
  geometry) and host-side operation outcomes (whether a direct pairs-root
  assignment or the serialize/unserialize fallback succeeds) are fields of
  the `Tab` structure; a successful installation of a new tree is modelled
  by replacing the `pairs` field, i.e. the host is assumed to serialize back
  exactly the tree that was installed.
* Fallible external calls are `Except String` values.
-/
import Mathlib

namespace SmartSplit

/-! ## Serialized splits tree (`smart_split_layout.py`)

A serialized pairs tree: `leaf` is a bare group id, `node` is a dict with an
optional "horizontal" flag and two children, `nil` is Python `None` (or any
non-dict, non-int value). -/

inductive SNode where
  | leaf (gid : Int) : SNode
  | node (horizontal : Option Bool) (one two : SNode) : SNode
  | nil : SNode
deriving DecidableEq, Repr

/-- `is_pair` from `layout_shape_matches`: `isinstance(node, dict)`. -/
def SNode.is_pair : SNode → Bool
  | .node .. => true
  | _ => false

/-- `is_leaf` from `layout_shape_matches`: `isinstance(node, int)`. -/
def SNode.is_leaf : SNode → Bool
  | .leaf _ => true
  | _ => false

/-- `node.get("horizontal", True)`: the flag defaults to `true` when absent;
on a non-dict value this access is never reached in the source, and we return
the dict default. -/
def node_flag : SNode → Bool
  | .node h _ _ => h.getD true
  | _ => true

/-- `node.get("one")`: the first child, `nil` when absent or not a dict. -/
def get_one : SNode → SNode
  | .node _ one _ => one
  | _ => .nil

/-- `node.get("two")`: the second child, `nil` when absent or not a dict. -/
def get_two : SNode → SNode
  | .node _ _ two => two
  | _ => .nil

/-- `_collect_pair_leaves`: all leaf ids of a serialized pairs tree, in
left-to-right order. -/
def collect_pair_leaves : SNode → List Int
  | .leaf g => [g]
  | .node _ one two => collect_pair_leaves one ++ collect_pair_leaves two
  | .nil => []

/-- Pixel geometry of one window (`window.geometry`). -/
structure Geom where
  left : Int
  right : Int
  top : Int
  bottom : Int
deriving DecidableEq, Repr

/-- The host-side data the layout module reads from a kitty tab, plus the
outcome of the host-side mutations it attempts.

* `layoutIsSplits`: `tab.current_layout.__class__.__name__ == "Splits"`.
* `pairs`: the result of `_layout_pairs(tab)` (`nil` when the layout is not
  `Splits`, serialization failed, or the serialized state has no pairs).
* `groupId`: `window_group_id(tab, wid)`.
* `pairAvailable`: whether `kitty.layout.splits.Pair` imported.
* `applyOk`: whether `_apply_pairs_root` (direct `pairs_root` assignment and
  relayout) succeeds.
* `serializeOk`: whether the serialize/mutate/unserialize fallback succeeds.
* `geometry`: `_window_geometry(tab, wid)`.
* `cell_height`: `lgd.cell_height`. -/
structure Tab where
  layoutIsSplits : Bool
  pairs : SNode
  groupId : Int → Option Int
  pairAvailable : Bool
  applyOk : Bool
  serializeOk : Bool
  geometry : Int → Option Geom
  cell_height : Int

/-- `_geometry_valid`: non-zero width and height. -/
def geometry_valid (g : Geom) : Bool :=
  (g.right - g.left > 0) && (g.bottom - g.top > 0)

/-- `geometry_ready`: all window geometries available and valid. -/
def geometry_ready (tab : Tab) (order : List Int) : Bool :=
  order.all fun wid =>
    match tab.geometry wid with
    | some g => geometry_valid g
    | none => false

/-- `layout_shape_matches(tab, count)`: does the serialized splits tree match
the canonical shape for `count` panes?  Direct translation of the source:
counts at most 1 are accepted without looking at the tree; otherwise the tree
must be a dict whose leaf count equals `count` and whose orientation/nesting
pattern is the canonical one for 2, 3 or 4 panes. -/
def layout_shape_matches (tab : Tab) (count : Int) : Bool :=
  if count ≤ 1 then true
  else
    let pairs := tab.pairs
    if ¬ pairs.is_pair then false
    else if ((collect_pair_leaves pairs).length : Int) ≠ count then false
    else if count = 2 then
      node_flag pairs && (get_one pairs).is_leaf && (get_two pairs).is_leaf
    else if count = 3 then
      !(node_flag pairs) && (get_one pairs).is_pair && (get_two pairs).is_leaf
        && node_flag (get_one pairs)
        && (get_one (get_one pairs)).is_leaf && (get_two (get_one pairs)).is_leaf
    else if count = 4 then
      !(node_flag pairs) && (get_one pairs).is_pair && (get_two pairs).is_pair
        && node_flag (get_one pairs) && node_flag (get_two pairs)
        && (get_one (get_one pairs)).is_leaf && (get_two (get_one pairs)).is_leaf
        && (get_one (get_two pairs)).is_leaf && (get_two (get_two pairs)).is_leaf
    else false

/-- Minimum of a list of ints (Python `min`; the empty case is unreachable in
the source, where the list always has three elements). -/
def int_list_min : List Int → Int
  | [] => 0
  | x :: xs => xs.foldl min x

/-- Maximum of a list of ints (Python `max`). -/
def int_list_max : List Int → Int
  | [] => 0
  | x :: xs => xs.foldl max x

/-- The geometry of a window, defaulting to a degenerate rectangle; only used
behind `geometry_ready` checks, where the default is unreachable. -/
def geom_of (tab : Tab) (wid : Int) : Geom :=
  (tab.geometry wid).getD ⟨0, 0, 0, 0⟩

/-- The geometry fallback of `three_pane_layout_inverted` (the part of the
source after the serialized-tree branch): detect a single nearly-full-width
top pane above a two-pane bottom row.  `int(total_width * 0.9)` is modelled
as `total_width * 9 / 10`; the source's float multiplication agrees with this
on the non-negative widths that occur (and this branch is not used by any
theorem below). -/
def three_pane_inverted_geometry (tab : Tab) (window_ids : List Int) : Bool :=
  if ¬ geometry_ready tab window_ids then false
  else
    let top_of := fun wid => (geom_of tab wid).top
    let min_top := int_list_min (window_ids.map top_of)
    let max_top := int_list_max (window_ids.map top_of)
    -- epsilon = max(1, lgd.cell_height // 2); cell_height is positive, where
    -- Python floor division and Lean integer division agree.
    let epsilon := max 1 (tab.cell_height / 2)
    let top_row := window_ids.filter fun wid => decide (|top_of wid - min_top| ≤ epsilon)
    let bottom_row := window_ids.filter fun wid => decide (|top_of wid - max_top| ≤ epsilon)
    if top_row.length ≠ 1 ∨ bottom_row.length ≠ 2 then false
    else
      let total_width :=
        int_list_max (window_ids.map fun wid => (geom_of tab wid).right)
          - int_list_min (window_ids.map fun wid => (geom_of tab wid).left)
      let top_wid := top_row.headD 0
      let top_width := (geom_of tab top_wid).right - (geom_of tab top_wid).left
      top_width ≥ total_width * 9 / 10

/-- `three_pane_layout_inverted(tab, window_ids)`: a 3-pane layout whose tree
is a vertical root with a single top leaf over a horizontal two-leaf bottom
pair (the mirror of the canonical 3-pane shape).  When the serialized tree is
a dict with a vertical root, the answer comes from the tree alone; when the
root is horizontal or the tree is unavailable, the source falls back to
geometry. -/
def three_pane_layout_inverted (tab : Tab) (window_ids : List Int) : Bool :=
  if window_ids.length ≠ 3 then false
  else if tab.pairs.is_pair then
    if !(node_flag tab.pairs) then
      let top_node := get_one tab.pairs
      let bottom_node := get_two tab.pairs
      top_node.is_leaf && bottom_node.is_pair && node_flag bottom_node
        && (get_one bottom_node).is_leaf && (get_two bottom_node).is_leaf
    else three_pane_inverted_geometry tab window_ids
  else three_pane_inverted_geometry tab window_ids

/-! ## Layout normalizer (`normalize_layout` and helpers) -/

/-- `_build_pairs_root(group_ids)`: the canonical `Pair` tree for 2, 3 or 4
group ids, `none` when the `Pair` class is unavailable or the count is not
supported.  The tree is represented by its serialized form (the `Pair`
constructor sets the `horizontal` flag explicitly, so the flag is present). -/
def build_pairs_root (pairAvailable : Bool) (group_ids : List Int) : Option SNode :=
  if ¬ pairAvailable then none
  else
    match group_ids with
    | [a, b] => some (.node (some true) (.leaf a) (.leaf b))
    | [a, b, c] =>
        some (.node (some false) (.node (some true) (.leaf a) (.leaf b)) (.leaf c))
    | [a, b, c, d] =>
        some (.node (some false) (.node (some true) (.leaf a) (.leaf b))
          (.node (some true) (.leaf c) (.leaf d)))
    | _ => none

/-- The dict literal built in the fallback path of `normalize_layout` for a
given count (2, 3 or 4); the source indexes `group_ids[0..3]`, which is in
range because `len(group_ids) == count` was checked. -/
def fallback_pairs (count : Nat) (group_ids : List Int) : SNode :=
  if count = 2 then
    .node (some true) (.leaf (group_ids.getD 0 0)) (.leaf (group_ids.getD 1 0))
  else if count = 3 then
    .node (some false)
      (.node (some true) (.leaf (group_ids.getD 0 0)) (.leaf (group_ids.getD 1 0)))
      (.leaf (group_ids.getD 2 0))
  else
    .node (some false)
      (.node (some true) (.leaf (group_ids.getD 0 0)) (.leaf (group_ids.getD 1 0)))
      (.node (some true) (.leaf (group_ids.getD 2 0)) (.leaf (group_ids.getD 3 0)))

/-- `normalize_layout(tab, order)`: rewrite the splits tree to the canonical
shape for `len(order)` panes and return the order unchanged.  Returns the new
tab state alongside the returned order.  Faithful control flow:

* counts 0 and 1 only reset window sizes (no tree change);
* counts above 4 and non-`Splits` layouts are no-ops;
* if any window's group id is unresolved, `len(group_ids) != count` and the
  call is a no-op;
* otherwise the direct `pairs_root` assignment is tried, then the
  serialize/mutate/unserialize fallback; a successful installation replaces
  the serialized tree, a failed one leaves the tab unchanged (the partial
  mutation a failed `relayout` could leave behind is not modelled). -/
def normalize_layout (tab : Tab) (order : List Int) : List Int × Tab :=
  if order.length ≤ 1 then (order, tab)
  else if order.length > 4 then (order, tab)
  else if ¬ tab.layoutIsSplits then (order, tab)
  else if (order.filterMap tab.groupId).length ≠ order.length then (order, tab)
  else
    -- `if pairs_root is not None and _apply_pairs_root(tab, pairs_root)`:
    -- take the direct path only when the tree was built and installs cleanly.
    match build_pairs_root tab.pairAvailable (order.filterMap tab.groupId),
        tab.applyOk with
    | some root, true => (order, { tab with pairs := root })
    | _, _ =>
        if tab.serializeOk then
          (order, { tab with
            pairs := fallback_pairs order.length (order.filterMap tab.groupId) })
        else (order, tab)

/-! ## Order tracker (`smart_split_state.py`) -/

/-- The base order computed at the top of `sync_window_order`: the prior
recorded order filtered to the live ids, except that an empty prior order is
seeded from `previous_ids` (when provided and non-empty) filtered to the live
ids. -/
def sync_seed_base (stateOrder current_ids : List Int)
    (previous_ids : Option (List Int)) : List Int :=
  if stateOrder.isEmpty ∧ ¬ (previous_ids.getD []).isEmpty then
    (previous_ids.getD []).filter fun wid => decide (wid ∈ current_ids)
  else
    stateOrder.filter fun wid => decide (wid ∈ current_ids)

/-- One of the two append loops of `sync_window_order`: walk `xs` and append
each element that satisfies `q` and is not already present. -/
def append_if_missing (q : Int → Bool) (acc xs : List Int) : List Int :=
  xs.foldl (fun a wid => if q wid = true ∧ wid ∉ a then a ++ [wid] else a) acc

/-- `sync_window_order(state, current_ids, new_ids, previous_ids)`: reconcile
the recorded order against the live id list.  `stateOrder` is
`state["order"]` (coerced to a list by the caller-side `isinstance` check);
the function returns the new recorded order. -/
def sync_window_order (stateOrder current_ids : List Int)
    (new_ids previous_ids : Option (List Int)) : List Int :=
  append_if_missing (fun _ => true)
    (append_if_missing (fun wid => decide (wid ∈ current_ids))
      (sync_seed_base stateOrder current_ids previous_ids)
      (new_ids.getD []))
    current_ids

/-! ## Command dispatcher (`main.py`) -/

/-- The explicit `normalize` mode of `handle_result` (main.py): reconcile the
recorded order against the settled live ids, then normalize the layout; the
returned order is stored back into `state["order"]`.  `stable_ids` is the
result of `wait_for_window_ids_settle(tab)`. -/
def normalize_mode (tab : Tab) (stateOrder stable_ids : List Int) : List Int × Tab :=
  let order := sync_window_order stateOrder stable_ids none none
  normalize_layout tab order

/-- The close-pane focus selection of `handle_result` (`close_window` mode):
when the closed window is in the slot order and more than one pane remains,
the desired next focus is the slot after the closed one, wrapping around
(`order_before[(closed_index + 1) % len(order_before)]`). -/
def close_desired_focus (order_before : List Int) (target_window_id : Int) : Option Int :=
  if h : target_window_id ∈ order_before ∧ 1 < order_before.length then
    some (order_before.get
      ⟨(order_before.indexOf target_window_id + 1) % order_before.length,
        Nat.mod_lt _ (by omega)⟩)
  else none

/-- The outcome of the split/grow path of `handle_result`: either the
dispatcher refuses (returns without asking the host for a new pane) or it
issues one `boss.launch` with a chosen split location, possibly followed by a
move-to-bottom of the new pane. -/
inductive SplitDecision where
  | refuse : SplitDecision
  | launch (location : String) (move_bottom : Bool) : SplitDecision
deriving DecidableEq, Repr

/-- The split/grow guard chain and orientation choice of `handle_result`
(main.py): refuse on any non split/grow mode, when the pane count is at or
over `max_windows`, when a 3-pane split is requested from a pane other than
the bottom slot, or when the active pane already occupies a square slot;
otherwise launch with the orientation chosen by pane count.  `geometry_order`
is `order_by_geometry(tab, current_ids)` and `square_slot` is
`active_window_is_square_slot(tab)`, both host reads. -/
def split_mode_decision (mode : String) (current_window_count : Nat)
    (max_windows : Int) (orientation : String) (active_window_id : Option Int)
    (geometry_order : List Int) (square_slot : Bool) : SplitDecision :=
  if mode ≠ "split" ∧ mode ≠ "grow" then .refuse
  else if (current_window_count : Int) ≥ max_windows then .refuse
  else if current_window_count = 3 ∧
      (active_window_id = none ∨ geometry_order.length ≠ 3 ∨
        active_window_id ≠ geometry_order.get? 2) then .refuse
  else if square_slot then .refuse
  else
    let chosen :=
      if orientation ≠ "auto" then orientation
      else if current_window_count = 1 then "vsplit"
      else if current_window_count = 2 then "hsplit"
      else if current_window_count = 3 then "vsplit"
      else if current_window_count % 2 = 0 then "vsplit" else "hsplit"
    let move_bottom := orientation = "auto" ∧ current_window_count = 2
    .launch chosen (decide move_bottom)

/-- The pane count after the dispatcher's split/grow path: only a `launch`
request can create a pane (the host adds exactly one window per launch). -/
def panes_after_split (current_window_count : Nat) : SplitDecision → Nat
  | .refuse => current_window_count
  | .launch _ _ => current_window_count + 1

/-! ## Hyprland repaint workaround (`smart_split_hyprland.py`) -/

/-- One entry of the `hyprctl -j clients` list, with the fields the source
reads.  `focusHistoryID` is `none` when the key is absent (the source then
uses the default `10**9`). -/
structure HClient where
  mapped : Bool
  hidden : Bool
  workspaceId : Option Int
  address : Option String
  focusHistoryID : Option Int

/-- The `hyprctl -j activewindow` fields the source reads. -/
structure ActiveWin where
  address : Option String
  workspaceId : Option Int

/-- The ambient state `split_repaint_focus_bounce` runs against: environment
variables, the compositor-detection result, and the outcome of every external
call.  A CLI invocation that exits non-zero or whose output cannot be parsed
is an `Except.error` (the source raises `RuntimeError` in that case). -/
structure HyprEnv where
  workaround_setting : Option String
  debug_setting : Option String
  runtime_dir : Option String
  hyprland_wayland : Bool
  log_write_ok : Bool
  activewindow : Except String ActiveWin
  clients : Except String (List HClient)
  dispatch : List String → Except String Unit

/-- Python truthiness of an optional string (`if not address`): present and
non-empty. -/
def str_truthy : Option String → Bool
  | some s => s ≠ ""
  | none => false

/-- `_split_repaint_log(message)`: append one line to the debug log when the
debug toggle is enabled and a runtime directory is known; any failure to open
or write the file is swallowed.  Returns the lines actually appended. -/
def split_repaint_log (env : HyprEnv) (message : String) : List String :=
  if ((env.debug_setting.getD "0").trim.toLower ∈ ["1", "true", "yes", "on"]) then
    match env.runtime_dir with
    | some d => if d = "" then [] else if env.log_write_ok then [message] else []
    | none => []
  else []

/-- The candidate filter of `split_repaint_focus_bounce`: mapped, not hidden,
same workspace, with a truthy address different from the active one; paired
with `int(c.get("focusHistoryID", 10**9))`.  A malformed client entry is
skipped (the per-client `try`/`except ... continue`). -/
def pick_candidates (clients : List HClient) (wsid : Int) (address : String) :
    List (Int × String) :=
  clients.filterMap fun c =>
    if ¬ c.mapped ∨ c.hidden then none
    else if c.workspaceId ≠ some wsid then none
    else
      match c.address with
      | none => none
      | some a =>
          if a = "" ∨ a = address then none
          else some (c.focusHistoryID.getD 1000000000, a)

/-- `candidates.sort(key=lambda x: x[0])` followed by taking the first entry:
the address with the smallest focus-history id, earliest entry winning ties
(Python's sort is stable). -/
def min_candidate : List (Int × String) → Option String
  | [] => none
  | c :: rest => some ((rest.foldl (fun best x => if x.1 < best.1 then x else best) c).2)

/-- The body of the big `try` block of `split_repaint_focus_bounce`; an
`Except.error` is an uncaught Python exception propagating out of the block.
Returns the debug-log lines written. -/
def bounce_try (env : HyprEnv) : Except String (List String) := do
  let active ← env.activewindow
  let address := active.address
  let workspace_id := active.workspaceId
  if ¬ str_truthy address then
    return split_repaint_log env "skip: activewindow missing address"
  let addr := address.getD ""
  let candidate_address : Option String ←
    match workspace_id with
    | some wsid => do
        let clients ← env.clients
        pure (min_candidate (pick_candidates clients wsid addr))
    | none => pure none
  match candidate_address with
  | some cand => do
      let _ ← env.dispatch ["focuswindow", "address:" ++ cand]
      let _ ← env.dispatch ["focuswindow", "address:" ++ addr]
      return split_repaint_log env
        ("ok: focus_bounce address=" ++ addr ++ " via=" ++ cand)
  | none => do
      -- inner try/except: a failed monitor bounce is logged and swallowed
      let monitor_logs :=
        match
          (do
            let _ ← env.dispatch ["focusmonitor", "current"]
            let _ ← env.dispatch ["focuswindow", "address:" ++ addr]
            pure (split_repaint_log env ("ok: focusmonitor_bounce address=" ++ addr))
            : Except String (List String)) with
        | .ok logs => logs
        | .error e => split_repaint_log env ("warn: focusmonitor_bounce failed: " ++ e)
      let _ ← env.dispatch ["forcerendererreload"]
      return monitor_logs ++ split_repaint_log env ("ok: forcerendererreload address=" ++ addr)

/-- `split_repaint_focus_bounce()`: skip when the workaround is disabled or
the session is not Hyprland-on-Wayland; otherwise run the bounce body with
every exception caught, logged and swallowed.  The result is `Except.ok` with
the appended log lines exactly when no exception escapes to the caller. -/
def split_repaint_focus_bounce (env : HyprEnv) : Except String (List String) :=
  if (env.workaround_setting.getD "1").trim.toLower ∈ ["0", "false", "no", "off"]
    then .ok []
  else if ¬ env.hyprland_wayland then .ok []
  else
    match bounce_try env with
    | .ok logs => .ok logs
    | .error e => .ok (split_repaint_log env ("error: " ++ e))

/-! ## Helper lemmas -/

theorem append_if_missing_nil (q : Int → Bool) (acc : List Int) :
    append_if_missing q acc [] = acc := rfl

theorem append_if_missing_cons (q : Int → Bool) (acc : List Int) (w : Int)
    (ws : List Int) :
    append_if_missing q acc (w :: ws) =
      append_if_missing q (if q w = true ∧ w ∉ acc then acc ++ [w] else acc) ws := rfl

theorem mem_append_if_missing (q : Int → Bool) (acc xs : List Int) (x : Int) :
    x ∈ append_if_missing q acc xs ↔ x ∈ acc ∨ (x ∈ xs ∧ q x = true) := by
  induction xs generalizing acc with
  | nil => simp [append_if_missing_nil]
  | cons w ws ih =>
    rw [append_if_missing_cons]
    by_cases h : q w = true ∧ w ∉ acc
    · rw [if_pos h, ih]
      constructor
      · rintro (hx | ⟨hx, hq⟩)
        · rcases List.mem_append.mp hx with hx' | hx'
          · exact Or.inl hx'
          · have hxw : x = w := by simpa using hx'
            subst hxw
            exact Or.inr ⟨List.mem_cons_self _ _, h.1⟩
        · exact Or.inr ⟨List.mem_cons_of_mem _ hx, hq⟩
      · rintro (hx | ⟨hx, hq⟩)
        · exact Or.inl (List.mem_append.mpr (Or.inl hx))
        · rcases List.mem_cons.mp hx with rfl | hx'
          · exact Or.inl (List.mem_append.mpr (Or.inr (by simp)))
          · exact Or.inr ⟨hx', hq⟩
    · rw [if_neg h, ih]
      constructor
      · rintro (hx | ⟨hx, hq⟩)
        · exact Or.inl hx
        · exact Or.inr ⟨List.mem_cons_of_mem _ hx, hq⟩
      · rintro (hx | ⟨hx, hq⟩)
        · exact Or.inl hx
        · rcases List.mem_cons.mp hx with rfl | hx'
          · rcases not_and_or.mp h with hq' | hacc
            · exact absurd hq hq'
            · exact Or.inl (not_not.mp hacc)
          · exact Or.inr ⟨hx', hq⟩

theorem nodup_append_if_missing (q : Int → Bool) (acc xs : List Int)
    (h : acc.Nodup) : (append_if_missing q acc xs).Nodup := by
  induction xs generalizing acc with
  | nil => exact h
  | cons w ws ih =>
    rw [append_if_missing_cons]
    by_cases hc : q w = true ∧ w ∉ acc
    · rw [if_pos hc]
      exact ih _ (by simp [List.nodup_append, h, hc.2])
    · rw [if_neg hc]
      exact ih _ h

theorem append_if_missing_structure (q : Int → Bool) (acc xs : List Int) :
    ∃ t, append_if_missing q acc xs = acc ++ t ∧ t.Sublist xs ∧
      ∀ x ∈ t, q x = true ∧ x ∉ acc := by
  induction xs generalizing acc with
  | nil => exact ⟨[], by simp [append_if_missing_nil], List.nil_sublist _, by simp⟩
  | cons w ws ih =>
    rw [append_if_missing_cons]
    by_cases hc : q w = true ∧ w ∉ acc
    · rw [if_pos hc]
      obtain ⟨t, ht, hsub, hall⟩ := ih (acc ++ [w])
      refine ⟨w :: t, by simp [ht], List.Sublist.cons₂ w hsub, ?_⟩
      intro x hx
      rcases List.mem_cons.mp hx with rfl | hx'
      · exact hc
      · obtain ⟨hq, hnx⟩ := hall x hx'
        exact ⟨hq, fun hmem => hnx (by simp [hmem])⟩
    · rw [if_neg hc]
      obtain ⟨t, ht, hsub, hall⟩ := ih acc
      exact ⟨t, ht, List.Sublist.cons w hsub, hall⟩

theorem append_if_missing_eq_self (q : Int → Bool) (acc xs : List Int)
    (h : ∀ x ∈ xs, q x = true → x ∈ acc) : append_if_missing q acc xs = acc := by
  induction xs generalizing acc with
  | nil => rfl
  | cons w ws ih =>
    rw [append_if_missing_cons]
    have hc : ¬ (q w = true ∧ w ∉ acc) := by
      rintro ⟨hq, hn⟩
      exact hn (h w (by simp) hq)
    rw [if_neg hc]
    exact ih _ fun x hx => h x (by simp [hx])

theorem mem_sync_seed_base (stateOrder current_ids : List Int)
    (previous_ids : Option (List Int)) (x : Int)
    (hx : x ∈ sync_seed_base stateOrder current_ids previous_ids) :
    x ∈ current_ids := by
  unfold sync_seed_base at hx
  split at hx <;> simpa using (List.mem_filter.mp hx).2

theorem nodup_sync_seed_base (stateOrder current_ids : List Int)
    (previous_ids : Option (List Int)) (h0 : stateOrder.Nodup)
    (hp : (previous_ids.getD []).Nodup) :
    (sync_seed_base stateOrder current_ids previous_ids).Nodup := by
  unfold sync_seed_base
  split
  · exact hp.filter _
  · exact h0.filter _

theorem mem_sync_window_order (stateOrder current_ids : List Int)
    (new_ids previous_ids : Option (List Int)) (x : Int) :
    x ∈ sync_window_order stateOrder current_ids new_ids previous_ids ↔
      x ∈ current_ids := by
  unfold sync_window_order
  rw [mem_append_if_missing, mem_append_if_missing]
  constructor
  · rintro ((hb | ⟨_, hq⟩) | ⟨hx, _⟩)
    · exact mem_sync_seed_base _ _ _ _ hb
    · simpa using hq
    · exact hx
  · intro hx
    exact Or.inr ⟨hx, rfl⟩

theorem nodup_sync_window_order (stateOrder current_ids : List Int)
    (new_ids previous_ids : Option (List Int)) (h0 : stateOrder.Nodup)
    (hp : (previous_ids.getD []).Nodup) :
    (sync_window_order stateOrder current_ids new_ids previous_ids).Nodup := by
  unfold sync_window_order
  exact nodup_append_if_missing _ _ _
    (nodup_append_if_missing _ _ _ (nodup_sync_seed_base _ _ _ h0 hp))

theorem sync_window_order_idem (stateOrder current_ids : List Int) :
    sync_window_order (sync_window_order stateOrder current_ids none none)
        current_ids none none =
      sync_window_order stateOrder current_ids none none := by
  set out := sync_window_order stateOrder current_ids none none with hout
  have hmem : ∀ x, x ∈ out ↔ x ∈ current_ids := fun x =>
    mem_sync_window_order stateOrder current_ids none none x
  show sync_window_order out current_ids none none = out
  unfold sync_window_order
  have hbase : sync_seed_base out current_ids none = out := by
    unfold sync_seed_base
    have : ¬ (out.isEmpty ∧ ¬ ((none : Option (List Int)).getD []).isEmpty) := by
      simp
    rw [if_neg this]
    exact List.filter_eq_self.mpr fun a ha => decide_eq_true ((hmem a).mp ha)
  rw [hbase]
  rw [show ((none : Option (List Int)).getD []) = [] from rfl, append_if_missing_nil]
  exact append_if_missing_eq_self _ _ _ fun x hx _ => (hmem x).mpr hx

theorem sync_window_order_perm (stateOrder current_ids : List Int)
    (h0 : stateOrder.Nodup) (hL : current_ids.Nodup) :
    (sync_window_order stateOrder current_ids none none).Perm current_ids :=
  (List.perm_ext_iff_of_nodup
      (nodup_sync_window_order _ _ _ _ h0 (by simp)) hL).mpr
    (mem_sync_window_order stateOrder current_ids none none)

theorem length_filterMap_eq_of_isSome {f : Int → Option Int} :
    ∀ (l : List Int), (∀ x ∈ l, (f x).isSome) →
      (l.filterMap f).length = l.length
  | [], _ => rfl
  | x :: xs, h => by
    obtain ⟨y, hy⟩ := Option.isSome_iff_exists.mp (h x (by simp))
    rw [List.filterMap_cons, hy]
    simpa using length_filterMap_eq_of_isSome xs fun a ha => h a (by simp [ha])

theorem length_filterMap_lt_of_none {f : Int → Option Int} :
    ∀ (l : List Int) (x : Int), x ∈ l → f x = none →
      (l.filterMap f).length < l.length
  | y :: ys, x, hx, hnone => by
    rw [List.filterMap_cons]
    rcases List.mem_cons.mp hx with rfl | hx'
    · rw [hnone]
      exact Nat.lt_succ_of_le (List.length_filterMap_le f ys)
    · cases hfy : f y with
      | none => exact Nat.lt_succ_of_lt (length_filterMap_lt_of_none ys x hx' hnone)
      | some b =>
        simpa using Nat.succ_lt_succ (length_filterMap_lt_of_none ys x hx' hnone)

theorem normalize_layout_fst (tab : Tab) (order : List Int) :
    (normalize_layout tab order).1 = order := by
  unfold normalize_layout
  repeat' split
  all_goals rfl

theorem matches_count_le_one (tab : Tab) (count : Int) (h : count ≤ 1) :
    layout_shape_matches tab count = true := by
  unfold layout_shape_matches
  rw [if_pos h]

theorem matches_canonical_two (tab : Tab) (a b : Int)
    (h : tab.pairs = .node (some true) (.leaf a) (.leaf b)) :
    layout_shape_matches tab 2 = true := by
  simp [layout_shape_matches, h, SNode.is_pair, SNode.is_leaf, node_flag,
    get_one, get_two, collect_pair_leaves]

theorem matches_canonical_three (tab : Tab) (a b c : Int)
    (h : tab.pairs =
      .node (some false) (.node (some true) (.leaf a) (.leaf b)) (.leaf c)) :
    layout_shape_matches tab 3 = true := by
  simp [layout_shape_matches, h, SNode.is_pair, SNode.is_leaf, node_flag,
    get_one, get_two, collect_pair_leaves]

theorem matches_canonical_four (tab : Tab) (a b c d : Int)
    (h : tab.pairs = .node (some false) (.node (some true) (.leaf a) (.leaf b))
      (.node (some true) (.leaf c) (.leaf d))) :
    layout_shape_matches tab 4 = true := by
  simp [layout_shape_matches, h, SNode.is_pair, SNode.is_leaf, node_flag,
    get_one, get_two, collect_pair_leaves]

theorem length_eq_four {l : List Int} (h : l.length = 4) :
    ∃ a b c d, l = [a, b, c, d] := by
  match l, h with
  | [a, b, c, d], _ => exact ⟨a, b, c, d, rfl⟩

/-- A concrete tab used by the witness theorems below: a `Splits` layout
whose serialized tree is the given one, where every window id resolves to a
group id, and where both installation paths succeed. -/
def demo_tab (p : SNode) : Tab where
  layoutIsSplits := true
  pairs := p
  groupId := fun wid => some (wid + 100)
  pairAvailable := true
  applyOk := true
  serializeOk := true
  geometry := fun _ => none
  cell_height := 2

/-- The mirror of the canonical 3-pane tree: single top leaf over a
horizontal bottom pair. -/
def inverted_pairs : SNode :=
  .node (some false) (.leaf 7) (.node (some true) (.leaf 8) (.leaf 9))

/-! ## Claim theorems -/

/-- C10: for every tab and every count at most 1 (including 0 and negative
counts), `layout_shape_matches` returns `True` without inspecting the
serialized split-tree: the quantification over the whole tab shows a one-pane
(or empty) tab is classified as canonical even when the tree still contains
split nodes. -/
theorem c10_layout_shape_matches_small_count (tab : Tab) (count : Int)
    (h : count ≤ 1) : layout_shape_matches tab count = true :=
  matches_count_le_one tab count h

/-- C10 witness: counts 0 and -5 are accepted on a tab whose tree still holds
a full 2x2 grid of split nodes. -/
theorem c10_layout_shape_matches_small_count_witness :
    layout_shape_matches
        (demo_tab (.node (some false) (.node (some true) (.leaf 1) (.leaf 2))
          (.node (some true) (.leaf 3) (.leaf 4)))) 0 = true ∧
      layout_shape_matches
        (demo_tab (.node (some false) (.node (some true) (.leaf 1) (.leaf 2))
          (.node (some true) (.leaf 3) (.leaf 4)))) (-5) = true :=
  ⟨c10_layout_shape_matches_small_count _ 0 (by decide),
   c10_layout_shape_matches_small_count _ (-5) (by decide)⟩

/-- C4: for every 3-element window-id list, `three_pane_layout_inverted`
returns `True` when the serialized split-tree is the mirror of the canonical
3-pane shape (a vertical root with a single top leaf over a horizontal pair
of two bottom leaves), and on such a tree `layout_shape_matches(tab, 3)` is
`False`. -/
theorem c4_three_pane_inverted_mirror (tab : Tab) (window_ids : List Int)
    (hlen : window_ids.length = 3) (h1 h2 : Option Bool) (g t1 t2 : Int)
    (hpairs : tab.pairs = .node h1 (.leaf g) (.node h2 (.leaf t1) (.leaf t2)))
    (hroot : h1.getD true = false) (hbot : h2.getD true = true) :
    three_pane_layout_inverted tab window_ids = true ∧
      layout_shape_matches tab 3 = false := by
  constructor
  · simp [three_pane_layout_inverted, hpairs, hlen, SNode.is_pair, node_flag,
      hroot, hbot, get_one, get_two, SNode.is_leaf]
  · simp [layout_shape_matches, hpairs, SNode.is_pair, SNode.is_leaf, node_flag,
      hroot, get_one, get_two, collect_pair_leaves]

/-- C4 witness: the concrete mirror tree `(7 | (8, 9))` on a 3-window tab is
flagged as inverted and rejected by the shape classifier. -/
theorem c4_three_pane_inverted_mirror_witness :
    three_pane_layout_inverted (demo_tab inverted_pairs) [1, 2, 3] = true ∧
      layout_shape_matches (demo_tab inverted_pairs) 3 = false :=
  c4_three_pane_inverted_mirror (demo_tab inverted_pairs) [1, 2, 3] (by decide)
    (some false) (some true) 7 8 9 rfl rfl rfl

/-- C5: `normalize_layout` returns exactly the order it was given, for every
tab and every order; moreover it is a no-op on the tab (tree untouched) when
the order's length is 0, 1, or greater than 4, or when some pane's group id
is not resolvable. -/
theorem c5_normalize_layout_returns_order (tab : Tab) (order : List Int) :
    (normalize_layout tab order).1 = order ∧
      ((order.length ≤ 1 ∨ 4 < order.length ∨
          ∃ wid ∈ order, tab.groupId wid = none) →
        (normalize_layout tab order).2 = tab) := by
  refine ⟨normalize_layout_fst tab order, ?_⟩
  intro h
  unfold normalize_layout
  by_cases hle : order.length ≤ 1
  · rw [if_pos hle]
  · rw [if_neg hle]
    by_cases hgt : order.length > 4
    · rw [if_pos hgt]
    · rw [if_neg hgt]
      obtain ⟨wid, hmem, hnone⟩ : ∃ wid ∈ order, tab.groupId wid = none := by
        rcases h with h | h | h
        · exact absurd h hle
        · exact absurd h hgt
        · exact h
      by_cases hsp : ¬ tab.layoutIsSplits
      · rw [if_pos hsp]
      · rw [if_neg hsp]
        rw [if_pos (Nat.ne_of_lt (length_filterMap_lt_of_none order wid hmem hnone))]

/-- C5 witness: on a tab whose group ids are all unresolved, a 2-element
order is returned unchanged and the tab is untouched. -/
theorem c5_normalize_layout_returns_order_witness :
    (normalize_layout { demo_tab .nil with groupId := fun _ => none } [5, 7]).1
        = [5, 7] ∧
      (normalize_layout { demo_tab .nil with groupId := fun _ => none } [5, 7]).2
        = { demo_tab .nil with groupId := fun _ => none } :=
  ⟨(c5_normalize_layout_returns_order _ [5, 7]).1,
   (c5_normalize_layout_returns_order _ [5, 7]).2
     (Or.inr (Or.inr ⟨5, by simp, rfl⟩))⟩

/-- C6: calling the dispatcher's normalize mode twice in a row with the same
live window-id set (no split or close in between) yields the same final
recorded slot order after each call. -/
theorem c6_normalize_mode_idempotent (tab : Tab) (stateOrder stable_ids : List Int) :
    (normalize_mode (normalize_mode tab stateOrder stable_ids).2
        (normalize_mode tab stateOrder stable_ids).1 stable_ids).1 =
      (normalize_mode tab stateOrder stable_ids).1 := by
  unfold normalize_mode
  rw [normalize_layout_fst, normalize_layout_fst]
  exact sync_window_order_idem stateOrder stable_ids

/-- C7: in `close_window` mode, for every duplicate-free slot order holding
the closed pane at position `i` and at least two panes, the desired
next-focus pane is the one at the next index in rotation order, wrapping to
the first slot. -/
theorem c7_close_focus_next_slot (order : List Int) (i : Nat)
    (hnd : order.Nodup) (hi : i < order.length) (h2 : 1 < order.length) :
    close_desired_focus order (order.get ⟨i, hi⟩) =
      some (order.get ⟨(i + 1) % order.length, Nat.mod_lt _ (by omega)⟩) := by
  unfold close_desired_focus
  rw [dif_pos ⟨List.get_mem order i hi, h2⟩]
  have hidx : order.indexOf (order.get ⟨i, hi⟩) = i := by
    simpa using List.indexOf_getElem hnd i hi
  simp only [hidx]

/-- C7 witness: with slot order `[a,b,c,d] = [10,20,30,40]`, closing `b = 20`
selects `c = 30`, and closing `d = 40` wraps to `a = 10`. -/
theorem c7_close_focus_next_slot_witness :
    close_desired_focus [10, 20, 30, 40] 20 = some 30 ∧
      close_desired_focus [10, 20, 30, 40] 40 = some 10 := by
  constructor
  · simpa using c7_close_focus_next_slot [10, 20, 30, 40] 1 (by decide)
      (by decide) (by decide)
  · simpa using c7_close_focus_next_slot [10, 20, 30, 40] 3 (by decide)
      (by decide) (by decide)

/-- C8: in split or grow mode, whenever the current pane count is at or over
`max_windows`, the dispatcher refuses: no launch (pane-creation) request is
issued to the host and the pane count is unchanged. -/
theorem c8_split_refused_at_max (mode : String) (current_window_count : Nat)
    (max_windows : Int) (orientation : String) (active_window_id : Option Int)
    (geometry_order : List Int) (square_slot : Bool)
    (hmode : mode = "split" ∨ mode = "grow")
    (hmax : max_windows ≤ (current_window_count : Int)) :
    split_mode_decision mode current_window_count max_windows orientation
        active_window_id geometry_order square_slot = .refuse ∧
      panes_after_split current_window_count
        (split_mode_decision mode current_window_count max_windows orientation
          active_window_id geometry_order square_slot) = current_window_count := by
  have hdec : split_mode_decision mode current_window_count max_windows orientation
      active_window_id geometry_order square_slot = .refuse := by
    unfold split_mode_decision
    have h1 : ¬ (mode ≠ "split" ∧ mode ≠ "grow") := by
      rcases hmode with rfl | rfl <;> simp
    rw [if_neg h1, if_pos (by omega : (current_window_count : Int) ≥ max_windows)]
  rw [hdec]
  exact ⟨rfl, rfl⟩

/-- C8 witness: from 4 panes with `max_panes = 4`, a fourth split call is
refused and the pane count stays 4. -/
theorem c8_split_refused_at_max_witness :
    split_mode_decision "split" 4 4 "auto" none [] false = .refuse ∧
      panes_after_split 4
        (split_mode_decision "split" 4 4 "auto" none [] false) = 4 :=
  c8_split_refused_at_max "split" 4 4 "auto" none [] false (Or.inl rfl) (by decide)

/-- C9: `split_repaint_focus_bounce` returns normally on every input state —
no exception ever propagates to its caller, even when every compositor CLI
invocation fails or throws; failures at most produce opt-in log lines and
abandon the repaint step. -/
theorem c9_split_repaint_focus_bounce_total (env : HyprEnv) :
    ∃ logs, split_repaint_focus_bounce env = Except.ok logs := by
  unfold split_repaint_focus_bounce
  repeat' split
  all_goals exact ⟨_, rfl⟩

/-- The canonical orientation-and-nesting pattern exactly as the claim words
it (spec side of the refinement check, written from the spec, not from the
source): for 2 panes, one horizontal pair of two leaves; for 3 panes, a
vertical root whose first child is a horizontal pair of two leaves and whose
second child is a leaf; for 4 panes, a vertical root whose two children are
each horizontal pairs of two leaves. -/
def spec_canonical_pattern (count : Int) (p : SNode) : Bool :=
  if count = 2 then
    match p with
    | .node h (.leaf _) (.leaf _) => h.getD true
    | _ => false
  else if count = 3 then
    match p with
    | .node h (.node h1 (.leaf _) (.leaf _)) (.leaf _) =>
        !(h.getD true) && h1.getD true
    | _ => false
  else if count = 4 then
    match p with
    | .node h (.node h1 (.leaf _) (.leaf _)) (.node h2 (.leaf _) (.leaf _)) =>
        !(h.getD true) && h1.getD true && h2.getD true
    | _ => false
  else false

/-- C3: for every serialized split-tree and every count in {2, 3, 4},
`layout_shape_matches(tab, count)` returns `True` exactly when the tree's
leaf count equals `count` and the tree has exactly the canonical
orientation-and-nesting pattern stated by the spec. -/
theorem c3_layout_shape_matches_iff_canonical (tab : Tab) (count : Int)
    (h : count = 2 ∨ count = 3 ∨ count = 4) :
    layout_shape_matches tab count = true ↔
      ((collect_pair_leaves tab.pairs).length : Int) = count ∧
        spec_canonical_pattern count tab.pairs = true := by
  rcases h with rfl | rfl | rfl
  · cases hp : tab.pairs with
    | nil => simp [layout_shape_matches, spec_canonical_pattern, hp,
        SNode.is_pair, collect_pair_leaves]
    | leaf g => simp [layout_shape_matches, spec_canonical_pattern, hp,
        SNode.is_pair, collect_pair_leaves]
    | node hh one two =>
      cases one <;> cases two <;>
        simp [layout_shape_matches, spec_canonical_pattern, hp, SNode.is_pair,
          SNode.is_leaf, node_flag, get_one, get_two, collect_pair_leaves]
  · cases hp : tab.pairs with
    | nil => simp [layout_shape_matches, spec_canonical_pattern, hp,
        SNode.is_pair, collect_pair_leaves]
    | leaf g => simp [layout_shape_matches, spec_canonical_pattern, hp,
        SNode.is_pair, collect_pair_leaves]
    | node hh one two =>
      cases one with
      | node h1 a b =>
        cases two <;> cases a <;> cases b <;>
          simp [layout_shape_matches, spec_canonical_pattern, hp, SNode.is_pair,
            SNode.is_leaf, node_flag, get_one, get_two, collect_pair_leaves]
      | leaf g1 =>
        cases two <;>
          simp [layout_shape_matches, spec_canonical_pattern, hp, SNode.is_pair,
            SNode.is_leaf, node_flag, get_one, get_two, collect_pair_leaves]
      | nil =>
        cases two <;>
          simp [layout_shape_matches, spec_canonical_pattern, hp, SNode.is_pair,
            SNode.is_leaf, node_flag, get_one, get_two, collect_pair_leaves]
  · cases hp : tab.pairs with
    | nil => simp [layout_shape_matches, spec_canonical_pattern, hp,
        SNode.is_pair, collect_pair_leaves]
    | leaf g => simp [layout_shape_matches, spec_canonical_pattern, hp,
        SNode.is_pair, collect_pair_leaves]
    | node hh one two =>
      cases one with
      | node h1 a b =>
        cases two with
        | node h2 c d =>
          cases a <;> cases b <;> cases c <;> cases d <;>
            simp [layout_shape_matches, spec_canonical_pattern, hp,
              SNode.is_pair, SNode.is_leaf, node_flag, get_one, get_two,
              collect_pair_leaves]
        | leaf g2 =>
          cases a <;> cases b <;>
            simp [layout_shape_matches, spec_canonical_pattern, hp,
              SNode.is_pair, SNode.is_leaf, node_flag, get_one, get_two,
              collect_pair_leaves]
        | nil =>
          cases a <;> cases b <;>
            simp [layout_shape_matches, spec_canonical_pattern, hp,
              SNode.is_pair, SNode.is_leaf, node_flag, get_one, get_two,
              collect_pair_leaves]
      | leaf g1 =>
        cases two <;>
          simp [layout_shape_matches, spec_canonical_pattern, hp, SNode.is_pair,
            SNode.is_leaf, node_flag, get_one, get_two, collect_pair_leaves]
      | nil =>
        cases two <;>
          simp [layout_shape_matches, spec_canonical_pattern, hp, SNode.is_pair,
            SNode.is_leaf, node_flag, get_one, get_two, collect_pair_leaves]

/-- C3 witness: the canonical 3-pane tree is accepted for count 3 and carries
exactly 3 leaves with the spec's pattern. -/
theorem c3_layout_shape_matches_iff_canonical_witness :
    layout_shape_matches
        (demo_tab (.node (some false) (.node (some true) (.leaf 7) (.leaf 8))
          (.leaf 9))) 3 = true ↔
      ((collect_pair_leaves (demo_tab (.node (some false)
          (.node (some true) (.leaf 7) (.leaf 8)) (.leaf 9))).pairs).length : Int)
          = 3 ∧
        spec_canonical_pattern 3 (demo_tab (.node (some false)
          (.node (some true) (.leaf 7) (.leaf 8)) (.leaf 9))).pairs = true :=
  c3_layout_shape_matches_iff_canonical _ 3 (Or.inr (Or.inl rfl))

/-- C1 counterexample: the claim fails for two of its quantified inputs.
First, a prior recorded order with a duplicate propagates it: with prior
order `[1, 1]` and live ids `[1]` the result is `[1, 1]`, which is not
duplicate-free.  Second, when the prior order is empty and `previous_ids`
seeds the base, explicitly supplied `new_ids` are NOT placed before the other
ids that are absent from the (empty) prior order: with prior order `[]`, live
ids `[5, 6, 7]`, `new_ids = [7]`, `previous_ids = [5, 6]`, the claim predicts
`[7, 5, 6]` but the code returns `[5, 6, 7]`. -/
theorem c1_sync_window_order_counterexample :
    (sync_window_order [1, 1] [1] none none = [1, 1] ∧
      ¬ (sync_window_order [1, 1] [1] none none).Nodup) ∧
      sync_window_order [] [5, 6, 7] (some [7]) (some [5, 6]) = [5, 6, 7] := by
  decide

/-- C1 (amended): for every duplicate-free prior recorded order and
duplicate-free `previous_ids`, `sync_window_order` returns a sequence whose
member set equals the live-id set exactly, with no duplicates, that keeps the
still-present ids of the prior order as a prefix in their prior relative
order, and appends the remaining ids at the end: qualifying `new_ids` first,
in the order given, then the remaining live ids in live order — all relative
to the seeded base (the prior order filtered to the live ids or, when the
prior order is empty and `previous_ids` is non-empty, `previous_ids` filtered
to the live ids).  The decomposition is exact in both directions: the
`new_ids` segment contains every qualifying new id (sound and complete), and
the trailing segment contains every remaining live id. -/
theorem c1_sync_window_order_reconcile (stateOrder current_ids : List Int)
    (new_ids previous_ids : Option (List Int))
    (h0 : stateOrder.Nodup) (hp : (previous_ids.getD []).Nodup) :
    (∀ x, x ∈ sync_window_order stateOrder current_ids new_ids previous_ids ↔
        x ∈ current_ids) ∧
      (sync_window_order stateOrder current_ids new_ids previous_ids).Nodup ∧
      (stateOrder.filter fun wid => decide (wid ∈ current_ids)) <+:
        sync_window_order stateOrder current_ids new_ids previous_ids ∧
      ∃ np rp,
        sync_window_order stateOrder current_ids new_ids previous_ids =
          sync_seed_base stateOrder current_ids previous_ids ++ np ++ rp ∧
        np.Sublist (new_ids.getD []) ∧
        (∀ x ∈ np, x ∈ current_ids ∧
          x ∉ sync_seed_base stateOrder current_ids previous_ids) ∧
        (∀ x ∈ new_ids.getD [], x ∈ current_ids →
          x ∉ sync_seed_base stateOrder current_ids previous_ids → x ∈ np) ∧
        rp.Sublist current_ids ∧
        (∀ x ∈ rp,
          x ∉ sync_seed_base stateOrder current_ids previous_ids ++ np) ∧
        (∀ x ∈ current_ids,
          x ∉ sync_seed_base stateOrder current_ids previous_ids ++ np →
            x ∈ rp) := by
  obtain ⟨np, hnp, hnpsub, hnpall⟩ :=
    append_if_missing_structure (fun wid => decide (wid ∈ current_ids))
      (sync_seed_base stateOrder current_ids previous_ids) (new_ids.getD [])
  obtain ⟨rp, hrp, hrpsub, hrpall⟩ :=
    append_if_missing_structure (fun _ => true)
      (append_if_missing (fun wid => decide (wid ∈ current_ids))
        (sync_seed_base stateOrder current_ids previous_ids) (new_ids.getD []))
      current_ids
  have hout : sync_window_order stateOrder current_ids new_ids previous_ids =
      sync_seed_base stateOrder current_ids previous_ids ++ np ++ rp := by
    unfold sync_window_order
    rw [hrp, hnp, List.append_assoc]
  refine ⟨mem_sync_window_order _ _ _ _,
    nodup_sync_window_order _ _ _ _ h0 hp, ?_, np, rp, hout, hnpsub, ?_, ?_,
    hrpsub, ?_, ?_⟩
  · by_cases he : stateOrder.isEmpty
    · rw [List.isEmpty_iff.mp he]
      simp
    · have hbase : sync_seed_base stateOrder current_ids previous_ids =
          stateOrder.filter fun wid => decide (wid ∈ current_ids) := by
        unfold sync_seed_base
        rw [if_neg (by simp [he])]
      exact hbase ▸ hout ▸ ⟨np ++ rp, by rw [List.append_assoc]⟩
  · intro x hx
    obtain ⟨hq, hb⟩ := hnpall x hx
    exact ⟨by simpa using hq, hb⟩
  · intro x hxnew hxL hxbase
    have hxin : x ∈ append_if_missing (fun wid => decide (wid ∈ current_ids))
        (sync_seed_base stateOrder current_ids previous_ids) (new_ids.getD []) :=
      (mem_append_if_missing _ _ _ x).mpr (Or.inr ⟨hxnew, decide_eq_true hxL⟩)
    rw [hnp] at hxin
    rcases List.mem_append.mp hxin with h | h
    · exact absurd h hxbase
    · exact h
  · intro x hx
    obtain ⟨_, hb⟩ := hrpall x hx
    rw [hnp] at hb
    exact hb
  · intro x hxL hxnot
    have hxout : x ∈ sync_window_order stateOrder current_ids new_ids previous_ids :=
      (mem_sync_window_order _ _ _ _ x).mpr hxL
    rw [hout] at hxout
    rcases List.mem_append.mp hxout with h | h
    · exact absurd h hxnot
    · exact h

/-- C1 witness for the amended claim, at prior order `[3, 1]`, live ids
`[1, 2, 4]` and `new_ids = [4]` (the result is `[1, 4, 2]`). -/
theorem c1_sync_window_order_reconcile_witness :
    (∀ x, x ∈ sync_window_order [3, 1] [1, 2, 4] (some [4]) none ↔
        x ∈ ([1, 2, 4] : List Int)) ∧
      (sync_window_order [3, 1] [1, 2, 4] (some [4]) none).Nodup ∧
      (([3, 1] : List Int).filter fun wid =>
          decide (wid ∈ ([1, 2, 4] : List Int))) <+:
        sync_window_order [3, 1] [1, 2, 4] (some [4]) none ∧
      ∃ np rp,
        sync_window_order [3, 1] [1, 2, 4] (some [4]) none =
          sync_seed_base [3, 1] [1, 2, 4] none ++ np ++ rp ∧
        np.Sublist ((some [4] : Option (List Int)).getD []) ∧
        (∀ x ∈ np, x ∈ ([1, 2, 4] : List Int) ∧
          x ∉ sync_seed_base [3, 1] [1, 2, 4] none) ∧
        (∀ x ∈ (some [4] : Option (List Int)).getD [],
          x ∈ ([1, 2, 4] : List Int) →
            x ∉ sync_seed_base [3, 1] [1, 2, 4] none → x ∈ np) ∧
        rp.Sublist ([1, 2, 4] : List Int) ∧
        (∀ x ∈ rp, x ∉ sync_seed_base [3, 1] [1, 2, 4] none ++ np) ∧
        (∀ x ∈ ([1, 2, 4] : List Int),
          x ∉ sync_seed_base [3, 1] [1, 2, 4] none ++ np → x ∈ rp) :=
  c1_sync_window_order_reconcile [3, 1] [1, 2, 4] (some [4]) none
    (by decide) (by decide)

theorem normalize_layout_canonical (tab : Tab) (order : List Int)
    (h2 : 2 ≤ order.length) (h4 : order.length ≤ 4)
    (hsplits : tab.layoutIsSplits = true)
    (hgid : ∀ wid ∈ order, (tab.groupId wid).isSome)
    (hinstall : (tab.pairAvailable = true ∧ tab.applyOk = true) ∨
      tab.serializeOk = true) :
    layout_shape_matches (normalize_layout tab order).2 (order.length : Int)
      = true := by
  have hglen : (order.filterMap tab.groupId).length = order.length :=
    length_filterMap_eq_of_isSome order hgid
  have hser : ¬ (tab.pairAvailable = true ∧ tab.applyOk = true) →
      tab.serializeOk = true := by tauto
  unfold normalize_layout
  rw [if_neg (by omega : ¬ order.length ≤ 1),
    if_neg (by omega : ¬ order.length > 4),
    if_neg (by simp [hsplits]),
    if_neg (by simp [hglen])]
  have hcases : order.length = 2 ∨ order.length = 3 ∨ order.length = 4 := by omega
  rcases hcases with hn | hn | hn
  · obtain ⟨a, b, hg⟩ := List.length_eq_two.mp (hglen.trans hn)
    rw [hg, hn]
    by_cases hd : tab.pairAvailable = true ∧ tab.applyOk = true
    · obtain ⟨hpav, happ⟩ := hd
      rw [hpav, happ]
      exact matches_canonical_two _ a b rfl
    · have hserOk := hser hd
      cases hpav : tab.pairAvailable with
      | false =>
        cases happ : tab.applyOk with
        | false => rw [if_pos hserOk]; exact matches_canonical_two _ a b rfl
        | true => rw [if_pos hserOk]; exact matches_canonical_two _ a b rfl
      | true =>
        cases happ : tab.applyOk with
        | false => rw [if_pos hserOk]; exact matches_canonical_two _ a b rfl
        | true => exact absurd ⟨hpav, happ⟩ hd
  · obtain ⟨a, b, c, hg⟩ := List.length_eq_three.mp (hglen.trans hn)
    rw [hg, hn]
    by_cases hd : tab.pairAvailable = true ∧ tab.applyOk = true
    · obtain ⟨hpav, happ⟩ := hd
      rw [hpav, happ]
      exact matches_canonical_three _ a b c rfl
    · have hserOk := hser hd
      cases hpav : tab.pairAvailable with
      | false =>
        cases happ : tab.applyOk with
        | false => rw [if_pos hserOk]; exact matches_canonical_three _ a b c rfl
        | true => rw [if_pos hserOk]; exact matches_canonical_three _ a b c rfl
      | true =>
        cases happ : tab.applyOk with
        | false => rw [if_pos hserOk]; exact matches_canonical_three _ a b c rfl
        | true => exact absurd ⟨hpav, happ⟩ hd
  · obtain ⟨a, b, c, d, hg⟩ := length_eq_four (hglen.trans hn)
    rw [hg, hn]
    by_cases hd : tab.pairAvailable = true ∧ tab.applyOk = true
    · obtain ⟨hpav, happ⟩ := hd
      rw [hpav, happ]
      exact matches_canonical_four _ a b c d rfl
    · have hserOk := hser hd
      cases hpav : tab.pairAvailable with
      | false =>
        cases happ : tab.applyOk with
        | false => rw [if_pos hserOk]; exact matches_canonical_four _ a b c d rfl
        | true => rw [if_pos hserOk]; exact matches_canonical_four _ a b c d rfl
      | true =>
        cases happ : tab.applyOk with
        | false => rw [if_pos hserOk]; exact matches_canonical_four _ a b c d rfl
        | true => exact absurd ⟨hpav, happ⟩ hd

/-- C2: for every pane count 1-4, after the dispatcher's normalize mode
(reconcile the recorded order against the settled live ids, then
`normalize_layout`), the shape classifier reports a canonical-shape match for
that count — given a `Splits` layout whose per-pane group ids are all
resolvable and for which at least one tree-installation path (direct
pairs-root assignment, or the serialize/unserialize fallback) succeeds, and
duplicate-free recorded and live id lists. -/
theorem c2_normalize_mode_canonical (tab : Tab) (stateOrder stable_ids : List Int)
    (h0 : stateOrder.Nodup) (hL : stable_ids.Nodup)
    (h1 : 1 ≤ stable_ids.length) (h4 : stable_ids.length ≤ 4)
    (hsplits : tab.layoutIsSplits = true)
    (hgid : ∀ wid ∈ stable_ids, (tab.groupId wid).isSome)
    (hinstall : (tab.pairAvailable = true ∧ tab.applyOk = true) ∨
      tab.serializeOk = true) :
    layout_shape_matches (normalize_mode tab stateOrder stable_ids).2
      (stable_ids.length : Int) = true := by
  have hperm := sync_window_order_perm stateOrder stable_ids h0 hL
  have hlen : (sync_window_order stateOrder stable_ids none none).length =
      stable_ids.length := hperm.length_eq
  unfold normalize_mode
  by_cases hone : stable_ids.length ≤ 1
  · exact matches_count_le_one _ _ (by exact_mod_cast hone)
  · have h2' : 2 ≤ (sync_window_order stateOrder stable_ids none none).length := by
      omega
    have h4' : (sync_window_order stateOrder stable_ids none none).length ≤ 4 := by
      omega
    have hgid' : ∀ wid ∈ sync_window_order stateOrder stable_ids none none,
        (tab.groupId wid).isSome := fun wid hw =>
      hgid wid ((mem_sync_window_order _ _ _ _ wid).mp hw)
    have hmain :=
      normalize_layout_canonical tab _ h2' h4' hsplits hgid' hinstall
    rw [hlen] at hmain
    exact hmain

/-- C2 witness: an empty recorded order and three live panes on a `Splits`
tab with resolvable group ids: after the normalize mode the classifier
accepts the 3-pane shape. -/
theorem c2_normalize_mode_canonical_witness :
    layout_shape_matches (normalize_mode (demo_tab .nil) [] [1, 2, 3]).2
      ((([1, 2, 3] : List Int).length : Nat) : Int) = true :=
  c2_normalize_mode_canonical (demo_tab .nil) [] [1, 2, 3] (by decide) (by decide)
    (by decide) (by decide) rfl (by decide) (Or.inl ⟨rfl, rfl⟩)

end SmartSplit
